import Mathlib

/-!
Shallow embedding of `src/traffic_controller.py` (Advanced Traffic Signal
Controller System).

Modelling conventions:
* Python `float` values (timestamps, wait times, green durations) become `ℚ`.
* Python `int` becomes `Int` (or `Nat` for counters that only ever grow).
* The string-keyed direction dictionaries of the source become total maps on
  an enumerated `Direction` type; the source's four-key dictionaries
  (`traffic_density`, `pedestrian_waiting`) become four-field structures.
* `queue.PriorityQueue` becomes a list kept sorted by priority ascending
  (the head is the entry `get()` would pop first).
* The event log and condition-variable notifications are pure observation /
  scheduling artefacts and are not part of the modelled state.
* Locked regions of the source execute atomically; the interleaving of the
  four signal threads is modelled by an explicit event-step relation below.
-/

namespace TrafficModel

/-- Directions of the intersection (in the source these are the strings
NORTH, SOUTH, EAST, WEST). -/
inductive Direction where
  | NORTH
  | SOUTH
  | EAST
  | WEST
deriving DecidableEq, Repr

open Direction

/-- `Intersection.get_opposing_direction` (traffic_controller.py lines
102-108): the `opposites` dictionary. -/
def get_opposing_direction : Direction → Direction
  | NORTH => SOUTH
  | SOUTH => NORTH
  | EAST => WEST
  | WEST => EAST

/-- `Intersection.get_conflicting_directions` (lines 110-118): the
`conflicts` dictionary. -/
def get_conflicting_directions : Direction → List Direction
  | NORTH => [EAST, WEST]
  | SOUTH => [EAST, WEST]
  | EAST => [NORTH, SOUTH]
  | WEST => [NORTH, SOUTH]

/-- `EmergencyVehicle` (lines 42-48): direction, id, creation timestamp and
the mutable `handled` flag. -/
structure EmergencyVehicle where
  direction : Direction
  vehicle_id : Nat
  timestamp : ℚ
  handled : Bool
deriving DecidableEq, Repr

/-- `TrafficStats` (lines 31-39): cumulative counters of one intersection. -/
structure TrafficStats where
  total_cycles : Nat := 0
  total_wait_time : ℚ := 0
  emergency_responses : Nat := 0
  deadlock_preventions : Nat := 0
  average_green_time : ℚ := 0
  vehicles_passed : Nat := 0
deriving DecidableEq, Repr

/-- The `traffic_density` dictionary (lines 74-76): one integer per
direction. -/
structure DensityMap where
  north : Int := 0
  south : Int := 0
  east : Int := 0
  west : Int := 0
deriving DecidableEq, Repr

def DensityMap.get (m : DensityMap) : Direction → Int
  | NORTH => m.north
  | SOUTH => m.south
  | EAST => m.east
  | WEST => m.west

def DensityMap.set (m : DensityMap) : Direction → Int → DensityMap
  | NORTH, v => { m with north := v }
  | SOUTH, v => { m with south := v }
  | EAST, v => { m with east := v }
  | WEST, v => { m with west := v }

/-- The `pedestrian_waiting` dictionary (lines 82-84). -/
structure PedestrianMap where
  north : Bool := false
  south : Bool := false
  east : Bool := false
  west : Bool := false
deriving DecidableEq, Repr

def PedestrianMap.set (m : PedestrianMap) : Direction → Bool → PedestrianMap
  | NORTH, v => { m with north := v }
  | SOUTH, v => { m with south := v }
  | EAST, v => { m with east := v }
  | WEST, v => { m with west := v }

/-- One entry of the `emergency_queue` priority queue: the priority (the
source puts `-time.time()`) paired with the vehicle. -/
abbrev PQEntry := ℚ × EmergencyVehicle

/-- Insertion into the priority-queue model: the list is kept sorted by
priority ascending, so the head is what `PriorityQueue.get` pops first. -/
def pqPush (entry : PQEntry) : List PQEntry → List PQEntry
  | [] => [entry]
  | e :: es => if entry.1 ≤ e.1 then entry :: e :: es else e :: pqPush entry es

/-- `Intersection` shared mutable state (lines 56-87).  `green_tokens` is the
current counter of the `green_semaphore` (initialised to 2); the lock,
condition variable and event log are not part of the modelled state. -/
structure Intersection where
  active_directions : List Direction := []
  green_tokens : Nat := 2
  emergency_queue : List PQEntry := []
  traffic_density : DensityMap := {}
  stats : TrafficStats := {}
  pedestrian_waiting : PedestrianMap := {}
deriving DecidableEq, Repr

/-- The state of a freshly constructed `Intersection` (lines 56-87). -/
def initialIntersection : Intersection := {}

/-- `Intersection.has_emergency_vehicle` (lines 120-128): pop the head of the
priority queue, push it back, and return it if it is unhandled (None if the
queue is empty or the popped entry is already handled).  The second component
is the queue after the pop/push round trip. -/
def has_emergency_vehicle (q : List PQEntry) : Option EmergencyVehicle × List PQEntry :=
  match q with
  | [] => (none, [])
  | e :: es => ((if e.2.handled then none else some e.2), pqPush e es)

/-- `Intersection.add_emergency_vehicle` (lines 130-139) at external clock
value `t` (the source reads `time.time()`): enqueue a new vehicle with
priority `-t` and id `emergency_responses + 1`. -/
def add_emergency_vehicle (it : Intersection) (direction : Direction) (t : ℚ) : Intersection :=
  let vehicle_id := it.stats.emergency_responses + 1
  let emergency : EmergencyVehicle :=
    { direction := direction, vehicle_id := vehicle_id, timestamp := t, handled := false }
  { it with emergency_queue := pqPush (-t, emergency) it.emergency_queue }

/-- Steps 2-6 of `Intersection.can_proceed` (lines 153-174): the conflict
check (the source returns False at the first active conflicting direction,
incrementing `deadlock_preventions` exactly once), then the opposing /
empty / capacity checks.  Returns the verdict and the updated state. -/
def can_proceed_core (it : Intersection) (direction : Direction) : Bool × Intersection :=
  if (∃ c ∈ get_conflicting_directions direction, c ∈ it.active_directions) then
    (false, { it with stats :=
      { it.stats with deadlock_preventions := it.stats.deadlock_preventions + 1 } })
  else if get_opposing_direction direction ∈ it.active_directions then
    (true, it)
  else if it.active_directions.length = 0 then
    (true, it)
  else if it.active_directions.length < 2 then
    (true, it)
  else
    (false, it)

/-- `Intersection.can_proceed` (lines 141-174): when `check_emergency` is
set, first peek the emergency queue (which pops and re-pushes the head) and
deny if the peeked vehicle heads a different direction. -/
def can_proceed (it : Intersection) (direction : Direction) (check_emergency : Bool) :
    Bool × Intersection :=
  if check_emergency then
    match has_emergency_vehicle it.emergency_queue with
    | (some e, q2) =>
      if e.direction ≠ direction then (false, { it with emergency_queue := q2 })
      else can_proceed_core { it with emergency_queue := q2 } direction
    | (none, q2) => can_proceed_core { it with emergency_queue := q2 } direction
  else
    can_proceed_core it direction

/-- `Intersection.enter_intersection` (lines 176-187), after a successful
`green_semaphore.acquire()`: consume one semaphore token, append the
direction to `active_directions`, bump `total_cycles`, and bump
`emergency_responses` when entering for an emergency. -/
def enter_intersection (it : Intersection) (direction : Direction) (is_emergency : Bool) :
    Intersection :=
  { it with
    green_tokens := it.green_tokens - 1
    active_directions := it.active_directions ++ [direction]
    stats :=
      { it.stats with
        total_cycles := it.stats.total_cycles + 1
        emergency_responses :=
          it.stats.emergency_responses + (if is_emergency then 1 else 0) } }

/-- `Intersection.exit_intersection` (lines 189-199): remove the first
occurrence of the direction from `active_directions` (the source guards the
`remove` with a membership test, which `List.erase` matches) and release the
semaphore token unconditionally. -/
def exit_intersection (it : Intersection) (direction : Direction) : Intersection :=
  { it with
    green_tokens := it.green_tokens + 1
    active_directions := it.active_directions.erase direction }

/-- `Intersection.update_traffic_density` (lines 201-204): store
`max(0, min(100, density))`. -/
def update_traffic_density (it : Intersection) (direction : Direction) (density : Int) :
    Intersection :=
  { it with traffic_density := it.traffic_density.set direction (max 0 (min 100 density)) }

/-- `Intersection.get_adaptive_green_time` (lines 206-212): read the current
density and return `base_time * (0.5 + density / 100)`.  The embedding's
type (state in, duration out, no state returned) reflects that the source
only reads under the lock and mutates nothing. -/
def get_adaptive_green_time (it : Intersection) (direction : Direction) (base_time : ℚ) : ℚ :=
  let density : ℚ := (it.traffic_density.get direction : ℚ)
  let multiplier : ℚ := 1 / 2 + density / 100
  base_time * multiplier

/-- `Intersection.set_pedestrian_waiting` (lines 214-219). -/
def set_pedestrian_waiting (it : Intersection) (direction : Direction) (waiting : Bool) :
    Intersection :=
  { it with pedestrian_waiting := it.pedestrian_waiting.set direction waiting }

/-! ### Interleaved execution of the four signal threads

Each `Event` below is one locked region (or one lock-free statement) of the
source as executed by a `TrafficSignal` thread or an external caller, and a
system run is an arbitrary interleaving of these events.  The successful
`can_proceed` poll inside `wait_for_turn` (line 244) and the
`enter_intersection` call in the GREEN phase (line 302) are separate locked
regions with a window in between, so they are separate events
(`passedCheck` / `ordinaryEnter`), coupled only through the thread's control
state; likewise the emergency peek (line 262) and the emergency entry
(line 267) are split into `emergencySpotted` / `emergencyEnter`.  A signal
thread polls for admission only while it neither holds the intersection nor
has already left its wait loop, which is what the per-thread flags guard. -/

/-- One boolean of per-thread control state per direction. -/
structure FlagMap where
  north : Bool := false
  south : Bool := false
  east : Bool := false
  west : Bool := false
deriving DecidableEq, Repr

def FlagMap.get (m : FlagMap) : Direction → Bool
  | NORTH => m.north
  | SOUTH => m.south
  | EAST => m.east
  | WEST => m.west

def FlagMap.set (m : FlagMap) : Direction → Bool → FlagMap
  | NORTH, v => { m with north := v }
  | SOUTH, v => { m with south := v }
  | EAST, v => { m with east := v }
  | WEST, v => { m with west := v }

/-- The system state: the shared intersection plus the control state of the
four signal threads.  `cleared d` is true while d's `wait_for_turn` has
returned True (line 247 or line 254) but its `enter_intersection`
(line 302) has not yet run; `emerPending d` is true while d's
`handle_emergency` has peeked its own emergency (line 264) but has not yet
entered (line 267). -/
structure SysState where
  inter : Intersection := {}
  cleared : FlagMap := {}
  emerPending : FlagMap := {}
deriving DecidableEq, Repr

/-- The state of a freshly started system: fresh intersection, every thread
at the top of its loop. -/
def initialSysState : SysState := {}

/-- Atomic events of the interleaved execution:
* `passedCheck d w`: a `can_proceed` poll inside `wait_for_turn` that
  returned True (lines 244-247, adding the accumulated wait `w` to
  `total_wait_time`); the thread leaves its wait loop (`cleared`).
* `forcedTimeout d`: the starvation-timeout path of `wait_for_turn`
  (lines 250-254): the thread leaves its wait loop without any `can_proceed`
  success and with no state change.
* `ordinaryEnter d`: the later `enter_intersection(d)` call of the GREEN
  phase (line 302), performed by a thread that left its wait loop; it blocks
  on the semaphore, hence the token guard.
* `deniedCheck d`: a `can_proceed` poll that returned False (its only
  lasting effect is the `deadlock_preventions` bump inside `can_proceed`).
* `emergencySpotted d`: `handle_emergency` (lines 262-264) peeking the queue
  and finding the head unhandled and headed its own direction.
* `emergencyEnter d`: the subsequent
  `enter_intersection(d, is_emergency=True)` (line 267).
* `markHandledHead`: the servicing thread setting `emergency.handled = True`
  (line 272) on the vehicle at the head of the queue.
* `release d`: `exit_intersection(d)` (lines 273 and 320).
* `dispatch d t`: `add_emergency_vehicle(d)` at clock value `t`
  (via `TrafficController.trigger_emergency`).
* `setDensity d v`: `update_traffic_density(d, v)`. -/
inductive Event where
  | passedCheck (d : Direction) (w : ℚ)
  | forcedTimeout (d : Direction)
  | ordinaryEnter (d : Direction)
  | deniedCheck (d : Direction)
  | emergencySpotted (d : Direction)
  | emergencyEnter (d : Direction)
  | markHandledHead
  | release (d : Direction)
  | dispatch (d : Direction) (t : ℚ)
  | setDensity (d : Direction) (v : Int)

/-- Effect of one event on the system state; `none` when the event is not
enabled (the issuing thread is not at the corresponding point of its loop,
the `can_proceed` verdict disagrees, no semaphore token is free, or no
matching emergency heads the queue). -/
def stepEvent (s : SysState) : Event → Option SysState
  | .passedCheck d w =>
    if s.cleared.get d then none
    else if s.emerPending.get d then none
    else if d ∈ s.inter.active_directions then none
    else
      match can_proceed s.inter d true with
      | (true, it2) =>
        some { s with
          inter := { it2 with stats :=
            { it2.stats with total_wait_time := it2.stats.total_wait_time + w } },
          cleared := s.cleared.set d true }
      | (false, _) => none
  | .forcedTimeout d =>
    if s.cleared.get d then none
    else if s.emerPending.get d then none
    else if d ∈ s.inter.active_directions then none
    else some { s with cleared := s.cleared.set d true }
  | .ordinaryEnter d =>
    if s.cleared.get d then
      if s.inter.green_tokens = 0 then none
      else
        some { s with
          inter := enter_intersection s.inter d false,
          cleared := s.cleared.set d false }
    else none
  | .deniedCheck d =>
    if s.cleared.get d then none
    else if s.emerPending.get d then none
    else if d ∈ s.inter.active_directions then none
    else
      match can_proceed s.inter d true with
      | (false, it2) => some { s with inter := it2 }
      | (true, _) => none
  | .emergencySpotted d =>
    if s.cleared.get d then none
    else if s.emerPending.get d then none
    else if d ∈ s.inter.active_directions then none
    else
      match has_emergency_vehicle s.inter.emergency_queue with
      | (some e, q2) =>
        if e.direction = d then
          some { s with
            inter := { s.inter with emergency_queue := q2 },
            emerPending := s.emerPending.set d true }
        else none
      | (none, _) => none
  | .emergencyEnter d =>
    if s.emerPending.get d then
      if s.inter.green_tokens = 0 then none
      else
        some { s with
          inter := enter_intersection s.inter d true,
          emerPending := s.emerPending.set d false }
    else none
  | .markHandledHead =>
    match s.inter.emergency_queue with
    | [] => none
    | (p, e) :: rest =>
      some { s with
        inter := { s.inter with
          emergency_queue := (p, { e with handled := true }) :: rest } }
  | .release d =>
    if d ∈ s.inter.active_directions then
      some { s with inter := exit_intersection s.inter d }
    else none
  | .dispatch d t => some { s with inter := add_emergency_vehicle s.inter d t }
  | .setDensity d v => some { s with inter := update_traffic_density s.inter d v }

/-- Run a finite interleaving of events from a given state; `none` when some
event along the way is not enabled. -/
def runEvents (s : SysState) : List Event → Option SysState
  | [] => some s
  | e :: es =>
    match stepEvent s e with
    | some s2 => runEvents s2 es
    | none => none

/-- Interleavings in which every entry into the intersection is a
`can_proceed`-checked ordinary admission whose `enter_intersection`
immediately follows its own successful poll — no other event in the window
between the two — and no starvation-timeout forced admission and no
emergency admission occurs.  All other events may interleave freely. -/
def serializedChecked : List Event → Bool
  | [] => true
  | Event.passedCheck d _ :: Event.ordinaryEnter d2 :: es =>
    d2 == d && serializedChecked es
  | Event.deniedCheck _ :: es => serializedChecked es
  | Event.emergencySpotted _ :: es => serializedChecked es
  | Event.markHandledHead :: es => serializedChecked es
  | Event.release _ :: es => serializedChecked es
  | Event.dispatch _ _ :: es => serializedChecked es
  | Event.setDensity _ _ :: es => serializedChecked es
  | _ => false

/-- Events that cannot change `active_directions`. -/
def keepsActive : Event → Bool
  | .ordinaryEnter _ => false
  | .emergencyEnter _ => false
  | .release _ => false
  | _ => true

/-- The mutual-exclusion property of spec §8: `active_directions` never
holds two conflicting directions and has size at most 2. -/
def MutualExclusion (it : Intersection) : Prop :=
  it.active_directions.length ≤ 2 ∧
    ∀ a ∈ it.active_directions, ∀ b ∈ it.active_directions,
      b ∉ get_conflicting_directions a

/-- The inductive invariant on the active list: no duplicates, at most two
members, and any two distinct members are mutually opposing. -/
def ActiveOk (l : List Direction) : Prop :=
  l.Nodup ∧ l.length ≤ 2 ∧ ∀ a ∈ l, ∀ b ∈ l, a ≠ b → b = get_opposing_direction a

/-- The capacity invariant: semaphore tokens plus active directions always
total 2. -/
def TokenOk (it : Intersection) : Prop :=
  it.green_tokens + it.active_directions.length = 2

/-! ### The per-direction signal loop (`TrafficSignal.run`, lines 279-329)

The loop body is modelled as the sequence of atomic actions it performs, in
source order, marking which of them admit (`enter_intersection`) and which
release (`exit_intersection`).  One completed iteration is either a full
GREEN/YELLOW/RED cycle or a full emergency service; an unexpected exception
(`except Exception` at line 327) aborts the body at an arbitrary point and
breaks out of the loop, so a failed run ends with a proper prefix of one
iteration's actions. -/

/-- One atomic action of the `TrafficSignal.run` loop body, as it affects
the intersection resource. -/
inductive SigAction where
  | enterI
  | exitI
  | noop
deriving DecidableEq, Repr

/-- Action sequence of one ordinary GREEN/YELLOW/RED iteration (lines
294-325): adaptive-green-time computation, `enter_intersection`, green
sleep + vehicle counting, yellow log + sleep, `exit_intersection`, minimum
red sleep. -/
def greenIteration : List SigAction :=
  [.noop, .enterI, .noop, .noop, .exitI, .noop]

/-- Action sequence of one emergency service (`handle_emergency`, lines
260-277): peek, `enter_intersection(is_emergency)`, 3-second dwell,
mark-handled + `exit_intersection`. -/
def emergencyIteration : List SigAction :=
  [.noop, .enterI, .noop, .exitI]

/-- `a` is an initial segment of `b` (the actions executed before an
exception struck somewhere in the loop body). -/
def isStartOf : List SigAction → List SigAction → Bool
  | [], _ => true
  | _ :: _, [] => false
  | a :: as, b :: bs => a == b && isStartOf as bs

/-- One terminated execution of the `TrafficSignal.run` loop: the completed
iterations, and — when the loop ended through the `except` branch — the
partial iteration cut short by the exception.  `aborted = none` covers both
normal exits: `running` observed False at the loop head, and
`wait_for_turn` returning False after `stop()`. -/
structure LoopRun where
  iterations : List (List SigAction)
  aborted : Option (List SigAction)

/-- A loop execution the source can actually produce: every completed
iteration is a green cycle or an emergency service, and an aborted tail is
an initial segment of one of the two. -/
def LoopRun.wellFormed (r : LoopRun) : Bool :=
  r.iterations.all (fun i => i == greenIteration || i == emergencyIteration) &&
    match r.aborted with
    | none => true
    | some p => isStartOf p greenIteration || isStartOf p emergencyIteration

/-- All actions performed by a loop execution, in order. -/
def LoopRun.actions (r : LoopRun) : List SigAction :=
  r.iterations.flatten ++ r.aborted.getD []

/-- Number of `enter_intersection` calls (successful admits) in a loop
execution. -/
def LoopRun.admits (r : LoopRun) : Nat :=
  r.actions.count .enterI

/-- Number of `exit_intersection` calls (releases) in a loop execution. -/
def LoopRun.releases (r : LoopRun) : Nat :=
  r.actions.count .exitI

/-! ### `TrafficController` (lines 345-429) -/

/-- `TrafficController` state: the owned intersections.  The signal-thread
handles and the `running` flag are process machinery not touched by the
modelled operations. -/
structure TrafficController where
  intersections : List Intersection
deriving DecidableEq, Repr

/-- Replace the `n`-th element of a list of intersections by `f` of it;
out-of-range indices leave the list unchanged (used only under an in-range
guard, mirroring the source's indexed assignment). -/
def modifyAt (l : List Intersection) (n : Nat) (f : Intersection → Intersection) :
    List Intersection :=
  match l, n with
  | [], _ => []
  | x :: xs, 0 => f x :: xs
  | x :: xs, Nat.succ m => x :: modifyAt xs m f

/-- `TrafficController.trigger_emergency` (lines 421-424) at clock value
`t`: forward to the addressed intersection when the index is in range,
otherwise do nothing. -/
def TrafficController.trigger_emergency (c : TrafficController) (intersection_idx : Int)
    (direction : Direction) (t : ℚ) : TrafficController :=
  if 0 ≤ intersection_idx ∧ intersection_idx < (c.intersections.length : Int) then
    let upd := fun it => add_emergency_vehicle it direction t
    { c with intersections := modifyAt c.intersections intersection_idx.toNat upd }
  else c

/-- `TrafficController.update_traffic_density` (lines 426-429): forward to
the addressed intersection when the index is in range, otherwise do
nothing. -/
def TrafficController.update_traffic_density (c : TrafficController)
    (intersection_idx : Int) (direction : Direction) (density : Int) : TrafficController :=
  if 0 ≤ intersection_idx ∧ intersection_idx < (c.intersections.length : Int) then
    let upd := fun it => TrafficModel.update_traffic_density it direction density
    { c with intersections := modifyAt c.intersections intersection_idx.toNat upd }
  else c

/-- The aggregate record `TrafficController.get_system_stats` returns
(lines 413-419); `average_wait_time` is modelled as the rational the source
formats into the `"...s"` string. -/
structure SystemStats where
  total_cycles : Nat
  average_wait_time : ℚ
  emergency_responses : Nat
  deadlock_preventions : Nat
  vehicles_passed : Nat
deriving DecidableEq, Repr

/-- The body of the accumulation loop of `get_system_stats` (lines
401-407): add one intersection's five summed counters into the running
totals. -/
def accumulateStats (acc : TrafficStats) (i : Intersection) : TrafficStats :=
  { acc with
    total_cycles := acc.total_cycles + i.stats.total_cycles
    total_wait_time := acc.total_wait_time + i.stats.total_wait_time
    emergency_responses := acc.emergency_responses + i.stats.emergency_responses
    deadlock_preventions := acc.deadlock_preventions + i.stats.deadlock_preventions
    vehicles_passed := acc.vehicles_passed + i.stats.vehicles_passed }

/-- The accumulation loop of `get_system_stats` (lines 399-407): fold the
five summed counters of each intersection into a fresh `TrafficStats`. -/
def sumStats (inters : List Intersection) : TrafficStats :=
  inters.foldl accumulateStats {}

/-- `TrafficController.get_system_stats` (lines 397-419): sum the counters,
then set the average (stored in `average_green_time`, reported as
`average_wait_time`) to `total_wait_time / total_cycles` when any cycles
happened, leaving it at its initial 0 otherwise. -/
def get_system_stats (c : TrafficController) : SystemStats :=
  let total := sumStats c.intersections
  let total :=
    if 0 < total.total_cycles then
      { total with average_green_time := total.total_wait_time / (total.total_cycles : ℚ) }
    else total
  { total_cycles := total.total_cycles
    average_wait_time := total.average_green_time
    emergency_responses := total.emergency_responses
    deadlock_preventions := total.deadlock_preventions
    vehicles_passed := total.vehicles_passed }

/-! ### Helper lemmas -/

/-- Any direction is equal to, opposing to, or conflicting with any other. -/
theorem direction_trichotomy (a d : Direction) :
    a = d ∨ a = get_opposing_direction d ∨ a ∈ get_conflicting_directions d := by
  cases a <;> cases d <;> decide

/-- The opposing-direction map is an involution. -/
theorem opposing_involutive (d : Direction) :
    get_opposing_direction (get_opposing_direction d) = d := by
  cases d <;> rfl

/-- A conflicting direction is neither the direction itself nor its
opposite. -/
theorem mem_conflicting_ne (a b : Direction) (h : b ∈ get_conflicting_directions a) :
    b ≠ a ∧ b ≠ get_opposing_direction a := by
  cases a <;> cases b <;> simp_all [get_conflicting_directions, get_opposing_direction]

/-- `can_proceed_core` never changes `active_directions` or the semaphore
counter. -/
theorem can_proceed_core_frame (it : Intersection) (d : Direction) :
    (can_proceed_core it d).2.active_directions = it.active_directions ∧
      (can_proceed_core it d).2.green_tokens = it.green_tokens := by
  unfold can_proceed_core
  repeat' split
  all_goals exact ⟨rfl, rfl⟩

/-- `can_proceed` never changes `active_directions` or the semaphore
counter. -/
theorem can_proceed_frame (it : Intersection) (d : Direction) (ce : Bool) :
    (can_proceed it d ce).2.active_directions = it.active_directions ∧
      (can_proceed it d ce).2.green_tokens = it.green_tokens := by
  unfold can_proceed
  cases ce
  · simpa using can_proceed_core_frame it d
  · simp only [if_true]
    rcases hq : has_emergency_vehicle it.emergency_queue with ⟨e, q2⟩
    cases e with
    | none => simpa using can_proceed_core_frame { it with emergency_queue := q2 } d
    | some v =>
      simp only []
      split
      · exact ⟨rfl, rfl⟩
      · simpa using can_proceed_core_frame { it with emergency_queue := q2 } d

/-- When the conflict-check stage of the admission check answers True, no
conflicting direction is active. -/
theorem can_proceed_core_true_no_conflict (it : Intersection) (d : Direction)
    (h : (can_proceed_core it d).1 = true) :
    ∀ c ∈ get_conflicting_directions d, c ∉ it.active_directions := by
  intro c hc hmem
  unfold can_proceed_core at h
  rw [if_pos ⟨c, hc, hmem⟩] at h
  exact Bool.false_ne_true h

/-- When the full admission check answers True, no conflicting direction is
active. -/
theorem can_proceed_true_no_conflict (it : Intersection) (d : Direction) (ce : Bool)
    (h : (can_proceed it d ce).1 = true) :
    ∀ c ∈ get_conflicting_directions d, c ∉ it.active_directions := by
  unfold can_proceed at h
  cases ce
  · exact can_proceed_core_true_no_conflict it d h
  · rcases hq : has_emergency_vehicle it.emergency_queue with ⟨e, q2⟩
    rw [hq] at h
    cases e with
    | none => exact can_proceed_core_true_no_conflict { it with emergency_queue := q2 } d h
    | some v =>
      have h2 : (if v.direction ≠ d
          then ((false : Bool), { it with emergency_queue := q2 })
          else can_proceed_core { it with emergency_queue := q2 } d).1 = true := h
      split at h2
      · simp at h2
      · exact can_proceed_core_true_no_conflict { it with emergency_queue := q2 } d h2

theorem activeOk_nil : ActiveOk [] := by
  refine ⟨List.nodup_nil, by simp, ?_⟩
  intro a ha
  simp at ha

/-- Appending a direction that passed the conflict check preserves the
invariant. -/
theorem activeOk_extend (l : List Direction) (d : Direction) (h : ActiveOk l)
    (hd : d ∉ l) (hc : ∀ c ∈ get_conflicting_directions d, c ∉ l) :
    ActiveOk (l ++ [d]) := by
  obtain ⟨hn, _, hp⟩ := h
  have hmem : ∀ a ∈ l, a = get_opposing_direction d := by
    intro a ha
    rcases direction_trichotomy a d with h1 | h1 | h1
    · exact absurd (h1 ▸ ha) hd
    · exact h1
    · exact absurd ha (hc a h1)
  match l, hn with
  | [], _ =>
    refine ⟨by simp, by simp, ?_⟩
    intro x hx y hy hxy
    have hx2 : x = d := by simpa using hx
    have hy2 : y = d := by simpa using hy
    rw [hx2, hy2] at hxy
    exact absurd rfl hxy
  | [a], _ =>
    have haod : a = get_opposing_direction d := hmem a (by simp)
    have hda : d ≠ a := fun hcon => hd (by simp [hcon])
    refine ⟨by simp [Ne.symm hda], by simp, ?_⟩
    intro x hx y hy hxy
    have hx2 : x = a ∨ x = d := by simpa using hx
    have hy2 : y = a ∨ y = d := by simpa using hy
    rcases hx2 with rfl | rfl <;> rcases hy2 with rfl | rfl
    · exact absurd rfl hxy
    · rw [haod, opposing_involutive]
    · exact haod
    · exact absurd rfl hxy
  | a :: b :: rest, hn =>
    exfalso
    have hab : a ≠ b := by
      intro hcon
      have hnotin : a ∉ b :: rest := (List.nodup_cons.mp hn).1
      exact hnotin (by simp [hcon])
    have ha2 : a = get_opposing_direction d := hmem a (by simp)
    have hb2 : b = get_opposing_direction d := hmem b (by simp)
    exact hab (ha2.trans hb2.symm)

/-- Erasing a direction preserves the invariant. -/
theorem activeOk_erase (l : List Direction) (d : Direction) (h : ActiveOk l) :
    ActiveOk (l.erase d) := by
  obtain ⟨hn, hlen, hp⟩ := h
  have hsub : List.Sublist (l.erase d) l := List.erase_sublist d l
  refine ⟨hn.sublist hsub, le_trans hsub.length_le hlen, ?_⟩
  intro a ha b hb hne
  exact hp a (hsub.subset ha) b (hsub.subset hb) hne

/-- Every enabled event preserves the capacity invariant. -/
theorem stepEvent_tokenOk (s s2 : SysState) (e : Event)
    (hs : stepEvent s e = some s2) (hTok : TokenOk s.inter) : TokenOk s2.inter := by
  unfold TokenOk at hTok ⊢
  cases e with
  | passedCheck d w =>
    simp only [stepEvent] at hs
    split at hs
    · exact absurd hs (by simp)
    · split at hs
      · exact absurd hs (by simp)
      · split at hs
        · exact absurd hs (by simp)
        · rcases hcp : can_proceed s.inter d true with ⟨b, itc⟩
          rw [hcp] at hs
          obtain ⟨hact, htok⟩ := can_proceed_frame s.inter d true
          rw [hcp] at hact htok
          cases b with
          | false => exact absurd hs (by simp)
          | true =>
            simp only at hs
            injection hs with hs2
            subst hs2
            simp only at hact htok
            show itc.green_tokens + itc.active_directions.length = 2
            rw [hact, htok]
            exact hTok
  | forcedTimeout d =>
    simp only [stepEvent] at hs
    split at hs
    · exact absurd hs (by simp)
    · split at hs
      · exact absurd hs (by simp)
      · split at hs
        · exact absurd hs (by simp)
        · injection hs with hs2
          subst hs2
          exact hTok
  | ordinaryEnter d =>
    simp only [stepEvent] at hs
    split at hs
    · split at hs
      · exact absurd hs (by simp)
      · rename_i hzero
        injection hs with hs2
        subst hs2
        show s.inter.green_tokens - 1 + (s.inter.active_directions ++ [d]).length = 2
        simp only [List.length_append, List.length_singleton]
        omega
    · exact absurd hs (by simp)
  | deniedCheck d =>
    simp only [stepEvent] at hs
    split at hs
    · exact absurd hs (by simp)
    · split at hs
      · exact absurd hs (by simp)
      · split at hs
        · exact absurd hs (by simp)
        · rcases hcp : can_proceed s.inter d true with ⟨b, itc⟩
          rw [hcp] at hs
          obtain ⟨hact, htok⟩ := can_proceed_frame s.inter d true
          rw [hcp] at hact htok
          cases b with
          | false =>
            injection hs with hs2
            subst hs2
            simp only at hact htok
            show itc.green_tokens + itc.active_directions.length = 2
            rw [hact, htok]
            exact hTok
          | true => exact absurd hs (by simp)
  | emergencySpotted d =>
    simp only [stepEvent] at hs
    split at hs
    · exact absurd hs (by simp)
    · split at hs
      · exact absurd hs (by simp)
      · split at hs
        · exact absurd hs (by simp)
        · rcases hq : has_emergency_vehicle s.inter.emergency_queue with ⟨eo, q2⟩
          rw [hq] at hs
          cases eo with
          | none => exact absurd hs (by simp)
          | some v =>
            simp only at hs
            split at hs
            · injection hs with hs2
              subst hs2
              exact hTok
            · exact absurd hs (by simp)
  | emergencyEnter d =>
    simp only [stepEvent] at hs
    split at hs
    · split at hs
      · exact absurd hs (by simp)
      · rename_i hzero
        injection hs with hs2
        subst hs2
        show s.inter.green_tokens - 1 + (s.inter.active_directions ++ [d]).length = 2
        simp only [List.length_append, List.length_singleton]
        omega
    · exact absurd hs (by simp)
  | markHandledHead =>
    simp only [stepEvent] at hs
    rcases hqq : s.inter.emergency_queue with _ | ⟨⟨p, v⟩, rest⟩ <;> rw [hqq] at hs
    · exact absurd hs (by simp)
    · injection hs with hs2
      subst hs2
      exact hTok
  | release d =>
    simp only [stepEvent] at hs
    split at hs
    · rename_i hmem
      injection hs with hs2
      subst hs2
      show s.inter.green_tokens + 1 + (s.inter.active_directions.erase d).length = 2
      rw [List.length_erase_of_mem hmem]
      have hpos : 0 < s.inter.active_directions.length := List.length_pos.mpr (by
        intro hnil
        rw [hnil] at hmem
        simp at hmem)
      omega
    · exact absurd hs (by simp)
  | dispatch d t =>
    simp only [stepEvent] at hs
    injection hs with hs2
    subst hs2
    exact hTok
  | setDensity d v =>
    simp only [stepEvent] at hs
    injection hs with hs2
    subst hs2
    exact hTok

/-- An enabled event other than an entry or a release leaves
`active_directions` unchanged. -/
theorem stepEvent_keepsActive (e : Event) (s s2 : SysState)
    (hk : keepsActive e = true) (hs : stepEvent s e = some s2) :
    s2.inter.active_directions = s.inter.active_directions := by
  cases e with
  | passedCheck d w =>
    simp only [stepEvent] at hs
    split at hs
    · exact absurd hs (by simp)
    · split at hs
      · exact absurd hs (by simp)
      · split at hs
        · exact absurd hs (by simp)
        · rcases hcp : can_proceed s.inter d true with ⟨b, itc⟩
          rw [hcp] at hs
          obtain ⟨hact, _⟩ := can_proceed_frame s.inter d true
          rw [hcp] at hact
          cases b with
          | false => exact absurd hs (by simp)
          | true =>
            simp only at hs
            injection hs with hs2
            subst hs2
            simp only at hact
            exact hact
  | forcedTimeout d =>
    simp only [stepEvent] at hs
    split at hs
    · exact absurd hs (by simp)
    · split at hs
      · exact absurd hs (by simp)
      · split at hs
        · exact absurd hs (by simp)
        · injection hs with hs2
          subst hs2
          rfl
  | ordinaryEnter d => exact absurd hk (by simp [keepsActive])
  | deniedCheck d =>
    simp only [stepEvent] at hs
    split at hs
    · exact absurd hs (by simp)
    · split at hs
      · exact absurd hs (by simp)
      · split at hs
        · exact absurd hs (by simp)
        · rcases hcp : can_proceed s.inter d true with ⟨b, itc⟩
          rw [hcp] at hs
          obtain ⟨hact, _⟩ := can_proceed_frame s.inter d true
          rw [hcp] at hact
          cases b with
          | false =>
            injection hs with hs2
            subst hs2
            simp only at hact
            exact hact
          | true => exact absurd hs (by simp)
  | emergencySpotted d =>
    simp only [stepEvent] at hs
    split at hs
    · exact absurd hs (by simp)
    · split at hs
      · exact absurd hs (by simp)
      · split at hs
        · exact absurd hs (by simp)
        · rcases hq : has_emergency_vehicle s.inter.emergency_queue with ⟨eo, q2⟩
          rw [hq] at hs
          cases eo with
          | none => exact absurd hs (by simp)
          | some v =>
            simp only at hs
            split at hs
            · injection hs with hs2
              subst hs2
              rfl
            · exact absurd hs (by simp)
  | emergencyEnter d => exact absurd hk (by simp [keepsActive])
  | markHandledHead =>
    simp only [stepEvent] at hs
    rcases hqq : s.inter.emergency_queue with _ | ⟨⟨p, v⟩, rest⟩ <;> rw [hqq] at hs
    · exact absurd hs (by simp)
    · injection hs with hs2
      subst hs2
      rfl
  | release d => exact absurd hk (by simp [keepsActive])
  | dispatch d t =>
    simp only [stepEvent] at hs
    injection hs with hs2
    subst hs2
    rfl
  | setDensity d v =>
    simp only [stepEvent] at hs
    injection hs with hs2
    subst hs2
    rfl

/-- The capacity invariant propagates along every enabled interleaving. -/
theorem runEvents_tokenOk (evs : List Event) (s s2 : SysState)
    (hs : runEvents s evs = some s2) (hTok : TokenOk s.inter) : TokenOk s2.inter := by
  induction evs generalizing s with
  | nil =>
    simp only [runEvents] at hs
    injection hs with hs2
    subst hs2
    exact hTok
  | cons e es ih =>
    simp only [runEvents] at hs
    rcases hstep : stepEvent s e with _ | sm
    · rw [hstep] at hs; exact absurd hs (by simp)
    · rw [hstep] at hs
      exact ih sm hs (stepEvent_tokenOk s sm e hstep hTok)

/-- Length-bounded core of `runEvents_serialized_activeOk`, proved by
induction on the bound because a serialized interleaving is consumed two
events at a time at each admission. -/
theorem runEvents_serialized_activeOk_aux (n : Nat) :
    ∀ (evs : List Event), evs.length ≤ n → ∀ (s s2 : SysState),
      serializedChecked evs = true → runEvents s evs = some s2 →
      ActiveOk s.inter.active_directions → ActiveOk s2.inter.active_directions := by
  induction n with
  | zero =>
    intro evs hlen s s2 hser hs hAct
    have hnil : evs = [] := List.length_eq_zero.mp (Nat.le_zero.mp hlen)
    subst hnil
    simp only [runEvents] at hs
    injection hs with hs2
    subst hs2
    exact hAct
  | succ n ih =>
    intro evs hlen s s2 hser hs hAct
    rcases evs with _ | ⟨e, es⟩
    · simp only [runEvents] at hs
      injection hs with hs2
      subst hs2
      exact hAct
    · cases e with
    | passedCheck d w =>
      rcases es with _ | ⟨e2, es2⟩
      · exact absurd hser (by exact fun h => Bool.noConfusion h)
      · cases e2
        case ordinaryEnter d2 =>
          have hser2 : (d2 == d && serializedChecked es2) = true := hser
          rw [Bool.and_eq_true] at hser2
          obtain ⟨hd2, hser3⟩ := hser2
          have hd2e : d2 = d := by simpa using hd2
          subst d2
          simp only [runEvents] at hs
          rcases h1 : stepEvent s (Event.passedCheck d w) with _ | s1
          · rw [h1] at hs; exact absurd hs (by simp)
          · rw [h1] at hs
            have hs3 : (match stepEvent s1 (Event.ordinaryEnter d) with
                | some sm => runEvents sm es2
                | none => none) = some s2 := hs
            rcases h2 : stepEvent s1 (Event.ordinaryEnter d) with _ | s1b
            · rw [h2] at hs3; exact absurd hs3 (by simp)
            · rw [h2] at hs3
              simp only [stepEvent] at h1
              split at h1
              · exact absurd h1 (by simp)
              · split at h1
                · exact absurd h1 (by simp)
                · split at h1
                  · exact absurd h1 (by simp)
                  · rename_i hclr hpend hmem
                    rcases hcp : can_proceed s.inter d true with ⟨b, itc⟩
                    rw [hcp] at h1
                    cases b with
                    | false => exact absurd h1 (by simp)
                    | true =>
                      simp only at h1
                      injection h1 with h1e
                      subst h1e
                      simp only [stepEvent] at h2
                      split at h2
                      · split at h2
                        · exact absurd h2 (by simp)
                        · injection h2 with h2e
                          subst h2e
                          have hconf :=
                            can_proceed_true_no_conflict s.inter d true (by rw [hcp])
                          have hres : ActiveOk (s.inter.active_directions ++ [d]) :=
                            activeOk_extend _ d hAct hmem hconf
                          have hfr := (can_proceed_frame s.inter d true).1
                          rw [hcp] at hfr
                          simp only at hfr
                          have hlen2 : es2.length ≤ n := by
                            simp only [List.length_cons] at hlen
                            omega
                          refine ih es2 hlen2 _ s2 hser3 hs3 ?_
                          show ActiveOk (itc.active_directions ++ [d])
                          rw [hfr]
                          exact hres
                      · exact absurd h2 (by simp)
        all_goals exact absurd hser (by exact fun h => Bool.noConfusion h)
    | forcedTimeout d => exact absurd hser (by exact fun h => Bool.noConfusion h)
    | ordinaryEnter d => exact absurd hser (by exact fun h => Bool.noConfusion h)
    | deniedCheck d =>
      have hser2 : serializedChecked es = true := hser
      simp only [runEvents] at hs
      rcases h1 : stepEvent s (Event.deniedCheck d) with _ | s1
      · rw [h1] at hs; exact absurd hs (by simp)
      · rw [h1] at hs
        have hlen2 : es.length ≤ n := by
          simp only [List.length_cons] at hlen
          omega
        refine ih es hlen2 s1 s2 hser2 hs ?_
        rw [stepEvent_keepsActive (Event.deniedCheck d) s s1 rfl h1]
        exact hAct
    | emergencySpotted d =>
      have hser2 : serializedChecked es = true := hser
      simp only [runEvents] at hs
      rcases h1 : stepEvent s (Event.emergencySpotted d) with _ | s1
      · rw [h1] at hs; exact absurd hs (by simp)
      · rw [h1] at hs
        have hlen2 : es.length ≤ n := by
          simp only [List.length_cons] at hlen
          omega
        refine ih es hlen2 s1 s2 hser2 hs ?_
        rw [stepEvent_keepsActive (Event.emergencySpotted d) s s1 rfl h1]
        exact hAct
    | emergencyEnter d => exact absurd hser (by exact fun h => Bool.noConfusion h)
    | markHandledHead =>
      have hser2 : serializedChecked es = true := hser
      simp only [runEvents] at hs
      rcases h1 : stepEvent s Event.markHandledHead with _ | s1
      · rw [h1] at hs; exact absurd hs (by simp)
      · rw [h1] at hs
        have hlen2 : es.length ≤ n := by
          simp only [List.length_cons] at hlen
          omega
        refine ih es hlen2 s1 s2 hser2 hs ?_
        rw [stepEvent_keepsActive Event.markHandledHead s s1 rfl h1]
        exact hAct
    | release d =>
      have hser2 : serializedChecked es = true := hser
      simp only [runEvents] at hs
      rcases h1 : stepEvent s (Event.release d) with _ | s1
      · rw [h1] at hs; exact absurd hs (by simp)
      · rw [h1] at hs
        have hlen2 : es.length ≤ n := by
          simp only [List.length_cons] at hlen
          omega
        refine ih es hlen2 s1 s2 hser2 hs ?_
        simp only [stepEvent] at h1
        split at h1
        · injection h1 with h1e
          subst h1e
          exact activeOk_erase _ d hAct
        · exact absurd h1 (by simp)
    | dispatch d t =>
      have hser2 : serializedChecked es = true := hser
      simp only [runEvents] at hs
      rcases h1 : stepEvent s (Event.dispatch d t) with _ | s1
      · rw [h1] at hs; exact absurd hs (by simp)
      · rw [h1] at hs
        have hlen2 : es.length ≤ n := by
          simp only [List.length_cons] at hlen
          omega
        refine ih es hlen2 s1 s2 hser2 hs ?_
        rw [stepEvent_keepsActive (Event.dispatch d t) s s1 rfl h1]
        exact hAct
    | setDensity d v =>
      have hser2 : serializedChecked es = true := hser
      simp only [runEvents] at hs
      rcases h1 : stepEvent s (Event.setDensity d v) with _ | s1
      · rw [h1] at hs; exact absurd hs (by simp)
      · rw [h1] at hs
        have hlen2 : es.length ≤ n := by
          simp only [List.length_cons] at hlen
          omega
        refine ih es hlen2 s1 s2 hser2 hs ?_
        rw [stepEvent_keepsActive (Event.setDensity d v) s s1 rfl h1]
        exact hAct

/-- The active-list invariant propagates along every serialized, fully
checked interleaving: every entry consumes the immediately preceding
successful `can_proceed` poll of its own direction, so the conflict check
is still valid at entry time. -/
theorem runEvents_serialized_activeOk (evs : List Event) (s s2 : SysState)
    (hser : serializedChecked evs = true)
    (hs : runEvents s evs = some s2)
    (hAct : ActiveOk s.inter.active_directions) :
    ActiveOk s2.inter.active_directions :=
  runEvents_serialized_activeOk_aux evs.length evs le_rfl s s2 hser hs hAct

/-- The inductive invariant implies the mutual-exclusion property. -/
theorem activeOk_mutualExclusion (it : Intersection) (h : ActiveOk it.active_directions) :
    MutualExclusion it := by
  obtain ⟨_, hlen, hp⟩ := h
  refine ⟨hlen, ?_⟩
  intro a ha b hb hconf
  obtain ⟨hba, hbo⟩ := mem_conflicting_ne a b hconf
  exact hbo (hp a ha b hb (Ne.symm hba))

/-! ### Claims -/

/-- C1 (amended): in every state reachable from a fresh system by any
interleaving of the modelled events, `active_directions` has size at most 2
(the semaphore bound holds on all paths); and for every interleaving in
which each entry into the intersection is a `can_proceed`-checked ordinary
admission whose `enter_intersection` immediately follows its own successful
poll — no other thread's action in the window between the two, no
starvation-timeout forced admission, no emergency admission —
`active_directions` additionally never contains two conflicting directions
(it is empty, a singleton, or an opposing pair).  The conflict-freedom part
holds on no wider class of paths: the forced-admission and emergency paths
bypass the conflict check, and even checked admissions violate it when
another admission interleaves between the successful poll and the entry,
see the counterexample. -/
theorem c1_mutual_exclusion (evs : List Event) (s : SysState)
    (hrun : runEvents initialSysState evs = some s) :
    s.inter.active_directions.length ≤ 2 ∧
      (serializedChecked evs = true → MutualExclusion s.inter) := by
  constructor
  · have hTok : TokenOk s.inter :=
      runEvents_tokenOk evs initialSysState s hrun (by rfl)
    unfold TokenOk at hTok
    omega
  · intro hser
    exact activeOk_mutualExclusion s.inter
      (runEvents_serialized_activeOk evs initialSysState s hser hrun activeOk_nil)

/-- C1 counterexample: the claim as stated is false, and not only on the
forced-admission path: the check-then-act race between `wait_for_turn`'s
successful `can_proceed` poll (line 244) and the later `enter_intersection`
of the GREEN phase (line 302) — two separate locked regions — already
breaks it.  NORTH's poll and EAST's poll both succeed on the empty
intersection, then both threads enter: the conflicting pair EAST/NORTH is
simultaneously active although every admission passed the `can_proceed`
check and no timeout or emergency was involved. -/
theorem c1_counterexample :
    (runEvents initialSysState
        [Event.passedCheck NORTH 0, Event.passedCheck EAST 0,
         Event.ordinaryEnter EAST, Event.ordinaryEnter NORTH]).map
        (fun s => s.inter.active_directions) = some [EAST, NORTH] ∧
      NORTH ∈ get_conflicting_directions EAST := ⟨rfl, by decide⟩

/-- C1 witness: the NORTH/SOUTH opposing pair reached through two
immediately consummated checked admissions satisfies the invariant. -/
theorem c1_mutual_exclusion_witness :
    serializedChecked [Event.passedCheck NORTH 0, Event.ordinaryEnter NORTH,
        Event.passedCheck SOUTH 0, Event.ordinaryEnter SOUTH] = true ∧
      ((runEvents initialSysState
          [Event.passedCheck NORTH 0, Event.ordinaryEnter NORTH,
           Event.passedCheck SOUTH 0, Event.ordinaryEnter SOUTH]).getD
          initialSysState).inter.active_directions.length ≤ 2 ∧
      MutualExclusion ((runEvents initialSysState
        [Event.passedCheck NORTH 0, Event.ordinaryEnter NORTH,
         Event.passedCheck SOUTH 0, Event.ordinaryEnter SOUTH]).getD
        initialSysState).inter := by
  have h := c1_mutual_exclusion
    [Event.passedCheck NORTH 0, Event.ordinaryEnter NORTH,
     Event.passedCheck SOUTH 0, Event.ordinaryEnter SOUTH]
    ((runEvents initialSysState
      [Event.passedCheck NORTH 0, Event.ordinaryEnter NORTH,
       Event.passedCheck SOUTH 0, Event.ordinaryEnter SOUTH]).getD
      initialSysState) rfl
  exact ⟨by decide, h.1, h.2 (by decide)⟩

/-- C2 (amended): if the emergency-queue peek (`has_emergency_vehicle`)
returns an unhandled request for direction D — i.e. the request at the head
of the priority queue is unhandled and headed D — then the ordinary
admission check `can_proceed` denies every direction other than D.  (The
original claim, phrased for any existing unhandled request, fails when a
later request shadows it at the head of the queue, see the
counterexample.) -/
theorem c2_emergency_precedence (it : Intersection) (d D : Direction)
    (e : EmergencyVehicle)
    (hpeek : (has_emergency_vehicle it.emergency_queue).1 = some e)
    (hdir : e.direction = D) (hne : d ≠ D) :
    (can_proceed it d true).1 = false := by
  unfold can_proceed
  rcases hq : has_emergency_vehicle it.emergency_queue with ⟨eo, q2⟩
  rw [hq] at hpeek
  have heo : eo = some e := hpeek
  subst heo
  have hed : e.direction ≠ d := by rw [hdir]; exact Ne.symm hne
  show (if e.direction ≠ d then ((false : Bool), { it with emergency_queue := q2 })
      else can_proceed_core { it with emergency_queue := q2 } d).1 = false
  rw [if_pos hed]

/-- C2 witness: a lone unhandled NORTH request denies EAST's ordinary
admission. -/
theorem c2_emergency_precedence_witness :
    (has_emergency_vehicle (add_emergency_vehicle initialIntersection
        NORTH 1).emergency_queue).1 =
      some { direction := NORTH, vehicle_id := 1, timestamp := 1, handled := false } ∧
      EAST ≠ NORTH ∧
      (can_proceed (add_emergency_vehicle initialIntersection NORTH 1) EAST true).1 = false :=
  ⟨rfl, by decide,
    c2_emergency_precedence (add_emergency_vehicle initialIntersection NORTH 1) EAST NORTH
      { direction := NORTH, vehicle_id := 1, timestamp := 1, handled := false }
      rfl rfl (by decide)⟩

/-- C2 counterexample: the claim as stated is false.  An unhandled emergency
for NORTH (dispatched at t=1) is pending, yet after a later EAST request
(t=2) is dispatched, the EAST request sits at the head of the
negative-timestamp priority queue, and the ordinary admission check for
EAST — a direction different from NORTH — succeeds while NORTH's request is
still unhandled. -/
theorem c2_counterexample :
    (∃ p ∈ (add_emergency_vehicle (add_emergency_vehicle initialIntersection NORTH 1)
        EAST 2).emergency_queue, p.2.direction = NORTH ∧ p.2.handled = false) ∧
      EAST ≠ NORTH ∧
      (can_proceed (add_emergency_vehicle (add_emergency_vehicle initialIntersection NORTH 1)
        EAST 2) EAST true).1 = true := by
  refine ⟨?_, by decide, rfl⟩
  have hq : (add_emergency_vehicle (add_emergency_vehicle initialIntersection NORTH 1)
      EAST 2).emergency_queue =
      [((-2 : ℚ), { direction := EAST, vehicle_id := 1, timestamp := 2, handled := false }),
       ((-1 : ℚ), { direction := NORTH, vehicle_id := 1, timestamp := 1, handled := false })] :=
    rfl
  rw [hq]
  exact ⟨((-1 : ℚ), { direction := NORTH, vehicle_id := 1, timestamp := 1, handled := false }),
    by simp, rfl, rfl⟩

/-- C3: the peek is not earliest-first.  `add_emergency_vehicle` enqueues
with priority `-timestamp`, so the head of the priority queue is the
latest-arriving request: after dispatching NORTH at t=1 and EAST at t=2,
`has_emergency_vehicle` returns the EAST request (t=2) although the
unhandled NORTH request has the smaller request time — contradicting both
the claim and the source's own "FIFO" comment (line 134). -/
theorem c3_peek_returns_latest :
    (has_emergency_vehicle (add_emergency_vehicle (add_emergency_vehicle initialIntersection
        NORTH 1) EAST 2).emergency_queue).1 =
      some { direction := EAST, vehicle_id := 1, timestamp := 2, handled := false } ∧
      (∃ p ∈ (add_emergency_vehicle (add_emergency_vehicle initialIntersection NORTH 1)
          EAST 2).emergency_queue, p.2.handled = false ∧ p.2.timestamp < 2) := by
  refine ⟨rfl, ?_⟩
  have hq : (add_emergency_vehicle (add_emergency_vehicle initialIntersection NORTH 1)
      EAST 2).emergency_queue =
      [((-2 : ℚ), { direction := EAST, vehicle_id := 1, timestamp := 2, handled := false }),
       ((-1 : ℚ), { direction := NORTH, vehicle_id := 1, timestamp := 1, handled := false })] :=
    rfl
  rw [hq]
  refine ⟨((-1 : ℚ), { direction := NORTH, vehicle_id := 1, timestamp := 1, handled := false }),
    by simp, rfl, by norm_num⟩

/-- Each completed loop iteration performs exactly as many admits as
releases, so a run without an aborted tail is balanced. -/
theorem flatten_count_balanced (l : List (List SigAction))
    (h : ∀ i ∈ l, i = greenIteration ∨ i = emergencyIteration) :
    l.flatten.count SigAction.enterI = l.flatten.count SigAction.exitI := by
  induction l with
  | nil => rfl
  | cons x xs ih =>
    have hx := h x (List.mem_cons_self x xs)
    have hxs := ih (fun i hi => h i (List.mem_cons_of_mem x hi))
    simp only [List.flatten_cons, List.count_append]
    have hcounts : greenIteration.count SigAction.enterI = 1 ∧
        greenIteration.count SigAction.exitI = 1 ∧
        emergencyIteration.count SigAction.enterI = 1 ∧
        emergencyIteration.count SigAction.exitI = 1 := by decide
    rcases hx with rfl | rfl <;> omega

/-- C4 (amended): in every well-formed terminated execution of the
`TrafficSignal.run` loop that does not end through the unexpected-failure
(`except`) branch — i.e. normal cycle completions and the stop paths, where
a stop observed mid-GREEN or mid-EMERGENCY still finishes the iteration —
the number of successful admits equals the number of releases.  On the
unexpected-failure path the loop `break`s wherever the exception struck, and
a failure between admit and release terminates the loop with the admission
unreleased, see the counterexample. -/
theorem c4_release_discipline (r : LoopRun) (hwf : r.wellFormed = true)
    (hnofail : r.aborted = none) : r.admits = r.releases := by
  unfold LoopRun.admits LoopRun.releases LoopRun.actions
  rw [hnofail]
  simp only [Option.getD_none, List.append_nil]
  apply flatten_count_balanced
  unfold LoopRun.wellFormed at hwf
  rw [hnofail] at hwf
  simp only [Bool.and_true, List.all_eq_true, Bool.or_eq_true, beq_iff_eq] at hwf
  exact hwf

/-- C4 witness: a run of one green cycle and one emergency service with no
aborted tail is balanced. -/
theorem c4_release_discipline_witness :
    (LoopRun.mk [greenIteration, emergencyIteration] none).wellFormed = true ∧
      (LoopRun.mk [greenIteration, emergencyIteration] none).aborted = none ∧
      (LoopRun.mk [greenIteration, emergencyIteration] none).admits =
        (LoopRun.mk [greenIteration, emergencyIteration] none).releases :=
  ⟨by decide, rfl,
    c4_release_discipline (LoopRun.mk [greenIteration, emergencyIteration] none)
      (by decide) rfl⟩

/-- C4 counterexample: the claim as stated — one release per admit on every
exit path including the unexpected-failure path — is false: an exception
striking during the GREEN hold (after `enter_intersection`, before
`exit_intersection`) makes the loop `break` (line 329) with one admit and
zero releases. -/
theorem c4_counterexample :
    (LoopRun.mk [] (some [SigAction.noop, SigAction.enterI, SigAction.noop])).wellFormed =
        true ∧
      (LoopRun.mk [] (some [SigAction.noop, SigAction.enterI, SigAction.noop])).admits = 1 ∧
      (LoopRun.mk [] (some [SigAction.noop, SigAction.enterI, SigAction.noop])).releases = 0 := by
  decide

/-- The conflict check of `can_proceed_core` fires exactly once when some
conflicting direction is active. -/
theorem can_proceed_core_conflict (it : Intersection) (d : Direction)
    (hconf : ∃ c ∈ get_conflicting_directions d, c ∈ it.active_directions) :
    can_proceed_core it d =
      (false, { it with stats := { it.stats with deadlock_preventions :=
        it.stats.deadlock_preventions + 1 } }) := by
  unfold can_proceed_core
  rw [if_pos hconf]

/-- C5 (amended): when the emergency-queue peek reports no unhandled
emergency for a different direction — `has_emergency_vehicle` returns None
or a request for the checked direction itself — and some conflicting
direction is active, `can_proceed` returns False and increments
`deadlock_preventions` by exactly one.  The claim's EAST/WEST example is
false: EAST and WEST are an opposing pair, not a conflicting one, so with
EAST active an admission check for WEST succeeds (see the counterexample);
a correct instance is EAST active and a NORTH check. -/
theorem c5_conflict_denial (it : Intersection) (d : Direction)
    (hem : ∀ e : EmergencyVehicle,
      (has_emergency_vehicle it.emergency_queue).1 = some e → e.direction = d)
    (hconf : ∃ c ∈ get_conflicting_directions d, c ∈ it.active_directions) :
    (can_proceed it d true).1 = false ∧
      (can_proceed it d true).2.stats.deadlock_preventions =
        it.stats.deadlock_preventions + 1 := by
  have hstep : can_proceed it d true =
      can_proceed_core
        { it with emergency_queue := (has_emergency_vehicle it.emergency_queue).2 } d := by
    unfold can_proceed
    rcases hqq : it.emergency_queue with _ | ⟨⟨p, e⟩, rest⟩
    · rfl
    · have hne2 : has_emergency_vehicle ((p, e) :: rest) =
          ((if e.handled = true then none else some e), pqPush (p, e) rest) := rfl
      by_cases hh : e.handled = true
      · rw [hne2, if_pos hh]
        rfl
      · have hpeek : (has_emergency_vehicle it.emergency_queue).1 = some e := by
          rw [hqq]
          show (if e.handled = true then none else some e) = some e
          rw [if_neg hh]
        have hed : e.direction = d := hem e hpeek
        rw [hne2, if_neg hh]
        show (if e.direction ≠ d
            then ((false : Bool), { it with emergency_queue := pqPush (p, e) rest })
            else can_proceed_core { it with emergency_queue := pqPush (p, e) rest } d) =
          can_proceed_core { it with emergency_queue := pqPush (p, e) rest } d
        rw [if_neg (by simp [hed])]
  have hconf2 : ∃ c ∈ get_conflicting_directions d,
      c ∈ ({ it with
        emergency_queue := (has_emergency_vehicle it.emergency_queue).2 } :
          Intersection).active_directions := hconf
  rw [hstep, can_proceed_core_conflict _ d hconf2]
  exact ⟨rfl, rfl⟩

/-- C5 witness: with EAST active and an empty emergency queue, a NORTH
admission check (NORTH conflicts with EAST) is denied and
`deadlock_preventions` grows from 0 to 1. -/
theorem c5_conflict_denial_witness :
    (∀ e : EmergencyVehicle,
        (has_emergency_vehicle ({ active_directions := [EAST] } :
          Intersection).emergency_queue).1 = some e → e.direction = NORTH) ∧
      (∃ c ∈ get_conflicting_directions NORTH,
        c ∈ ({ active_directions := [EAST] } : Intersection).active_directions) ∧
      (can_proceed ({ active_directions := [EAST] } : Intersection) NORTH true).1 = false ∧
      (can_proceed ({ active_directions := [EAST] } : Intersection)
          NORTH true).2.stats.deadlock_preventions =
        ({ active_directions := [EAST] } : Intersection).stats.deadlock_preventions + 1 := by
  have hem : ∀ e : EmergencyVehicle,
      (has_emergency_vehicle ({ active_directions := [EAST] } :
        Intersection).emergency_queue).1 = some e → e.direction = NORTH := by
    intro e h
    exact absurd h (by simp [has_emergency_vehicle])
  refine ⟨hem, ⟨EAST, by decide, by decide⟩, ?_⟩
  exact c5_conflict_denial ({ active_directions := [EAST] } : Intersection) NORTH
    hem ⟨EAST, by decide, by decide⟩

/-- C5 counterexample: the claim's example is false on the code.  EAST and
WEST are opposing (`get_opposing_direction`), not conflicting
(`get_conflicting_directions`), so with EAST active and no emergencies a
WEST admission check returns True and leaves `deadlock_preventions`
unchanged at 0. -/
theorem c5_counterexample :
    ({ active_directions := [EAST] } : Intersection).emergency_queue = [] ∧
      EAST ∈ ({ active_directions := [EAST] } : Intersection).active_directions ∧
      (can_proceed ({ active_directions := [EAST] } : Intersection) WEST true).1 = true ∧
      (can_proceed ({ active_directions := [EAST] } : Intersection)
          WEST true).2.stats.deadlock_preventions = 0 :=
  ⟨rfl, by decide, rfl, rfl⟩

/-- C6: the adaptive green time is exactly `base * (0.5 + density / 100)`
for the stored density of the addressed direction — the embedding's type
already shows the call returns only the duration and leaves the state
untouched — and on the spec's scenarios (base 5, density 100 resp. 0) it
yields 7.5 resp. 2.5. -/
theorem c6_adaptive_green_time :
    (∀ (it : Intersection) (d : Direction) (base : ℚ),
        get_adaptive_green_time it d base =
          base * (1 / 2 + (it.traffic_density.get d : ℚ) / 100)) ∧
      get_adaptive_green_time (update_traffic_density initialIntersection NORTH 100)
          NORTH 5 = 15 / 2 ∧
      get_adaptive_green_time (update_traffic_density initialIntersection NORTH 0)
          NORTH 5 = 5 / 2 := by
  refine ⟨fun it d base => rfl, ?_, ?_⟩ <;>
    norm_num [get_adaptive_green_time, update_traffic_density, initialIntersection,
      DensityMap.get, DensityMap.set]

/-- C7: for a fixed direction and a fixed non-negative base time, the
adaptive green time computed at a smaller stored density is at most the one
computed at a larger stored density. -/
theorem c7_adaptive_monotone (d : Direction) (base : ℚ) (it1 it2 : Intersection)
    (hbase : 0 ≤ base)
    (hd : it1.traffic_density.get d < it2.traffic_density.get d) :
    get_adaptive_green_time it1 d base ≤ get_adaptive_green_time it2 d base := by
  have hc : ((it1.traffic_density.get d : ℚ)) ≤ ((it2.traffic_density.get d : ℚ)) := by
    exact_mod_cast hd.le
  show base * (1 / 2 + (it1.traffic_density.get d : ℚ) / 100) ≤
    base * (1 / 2 + (it2.traffic_density.get d : ℚ) / 100)
  gcongr

/-- C7 witness: densities 0 < 100 for NORTH at base 5. -/
theorem c7_adaptive_monotone_witness :
    (0 : ℚ) ≤ 5 ∧
      (update_traffic_density initialIntersection NORTH 0).traffic_density.get NORTH <
        (update_traffic_density initialIntersection NORTH 100).traffic_density.get NORTH ∧
      get_adaptive_green_time (update_traffic_density initialIntersection NORTH 0)
          NORTH 5 ≤
        get_adaptive_green_time (update_traffic_density initialIntersection NORTH 100)
          NORTH 5 :=
  ⟨by norm_num, by decide,
    c7_adaptive_monotone NORTH 5 (update_traffic_density initialIntersection NORTH 0)
      (update_traffic_density initialIntersection NORTH 100) (by norm_num) (by decide)⟩

/-- C8: for every integer input, `update_traffic_density` stores
`max(0, min(100, density))` for the addressed direction — the embedding is a
total function, so no input is rejected — and the stored value always lies
in [0, 100]. -/
theorem c8_density_clamped (it : Intersection) (d : Direction) (v : Int) :
    (update_traffic_density it d v).traffic_density.get d = max 0 (min 100 v) ∧
      0 ≤ (update_traffic_density it d v).traffic_density.get d ∧
      (update_traffic_density it d v).traffic_density.get d ≤ 100 := by
  have hget : (update_traffic_density it d v).traffic_density.get d =
      max 0 (min 100 v) := by
    cases d <;> rfl
  refine ⟨hget, ?_, ?_⟩
  · rw [hget]; exact le_max_left 0 _
  · rw [hget]; exact max_le (by norm_num) (min_le_left _ _)

/-- The accumulation fold computes, in each of the five summed fields, the
start value plus the sum over the list, and leaves `average_green_time`
untouched. -/
theorem sumStats_go (l : List Intersection) (acc : TrafficStats) :
    l.foldl accumulateStats acc =
      { total_cycles := acc.total_cycles + (l.map (fun i => i.stats.total_cycles)).sum
        total_wait_time :=
          acc.total_wait_time + (l.map (fun i => i.stats.total_wait_time)).sum
        emergency_responses :=
          acc.emergency_responses + (l.map (fun i => i.stats.emergency_responses)).sum
        deadlock_preventions :=
          acc.deadlock_preventions + (l.map (fun i => i.stats.deadlock_preventions)).sum
        average_green_time := acc.average_green_time
        vehicles_passed :=
          acc.vehicles_passed + (l.map (fun i => i.stats.vehicles_passed)).sum } := by
  induction l generalizing acc with
  | nil => simp
  | cons x xs ih =>
    simp only [List.foldl_cons, List.map_cons, List.sum_cons, ih, accumulateStats]
    congr 1 <;> ring

/-- C9: `get_system_stats` returns the sums of the per-intersection
`total_cycles`, `total_wait_time` (via the average), `emergency_responses`,
`deadlock_preventions` and `vehicles_passed` counters, and its
`average_wait_time` is the summed wait time divided by the summed cycle
count, or 0 when no cycles have completed. -/
theorem c9_aggregate_stats (c : TrafficController) :
    get_system_stats c =
      { total_cycles := (c.intersections.map (fun i => i.stats.total_cycles)).sum
        average_wait_time :=
          if (c.intersections.map (fun i => i.stats.total_cycles)).sum = 0 then 0
          else (c.intersections.map (fun i => i.stats.total_wait_time)).sum /
            (((c.intersections.map (fun i => i.stats.total_cycles)).sum : ℚ))
        emergency_responses :=
          (c.intersections.map (fun i => i.stats.emergency_responses)).sum
        deadlock_preventions :=
          (c.intersections.map (fun i => i.stats.deadlock_preventions)).sum
        vehicles_passed := (c.intersections.map (fun i => i.stats.vehicles_passed)).sum } := by
  simp only [get_system_stats, sumStats, sumStats_go, zero_add]
  by_cases hz : (c.intersections.map (fun i => i.stats.total_cycles)).sum = 0
  · simp [hz]
  · have hpos : 0 < (c.intersections.map (fun i => i.stats.total_cycles)).sum :=
      Nat.pos_of_ne_zero hz
    simp [hz, hpos]
    rfl

/-- C10: calling `trigger_emergency` or `update_traffic_density` on the
controller with an index outside [0, number of intersections) returns the
controller unchanged: nothing is enqueued, no density table or any other
modelled state changes, and being total functions the calls cannot raise. -/
theorem c10_out_of_range_noop (c : TrafficController) (idx : Int) (d1 d2 : Direction)
    (t : ℚ) (v : Int)
    (h : ¬(0 ≤ idx ∧ idx < (c.intersections.length : Int))) :
    c.trigger_emergency idx d1 t = c ∧ c.update_traffic_density idx d2 v = c := by
  unfold TrafficController.trigger_emergency TrafficController.update_traffic_density
  rw [if_neg h, if_neg h]
  exact ⟨rfl, rfl⟩

/-- C10 witness: index 5 on a one-intersection controller is out of range
and both calls are no-ops. -/
theorem c10_out_of_range_noop_witness :
    ¬((0 : Int) ≤ 5 ∧
        (5 : Int) < ((TrafficController.mk [initialIntersection]).intersections.length : Int)) ∧
      (TrafficController.mk [initialIntersection]).trigger_emergency 5 NORTH 1 =
        TrafficController.mk [initialIntersection] ∧
      (TrafficController.mk [initialIntersection]).update_traffic_density 5 SOUTH 50 =
        TrafficController.mk [initialIntersection] :=
  ⟨by decide,
    c10_out_of_range_noop (TrafficController.mk [initialIntersection]) 5 NORTH SOUTH 1 50
      (by decide)⟩

end TrafficModel
